import Mathlib

/-
Verification of the OCBC bank-statement parsing core (`parse.py`).

The Python source is shallowly embedded below:
  * cells are `String`, rows are `List String`, tables are `List (List String)`;
  * `Decimal` values are modelled as `ℚ` (exact values; `Decimal` is exact);
  * a caught Python exception becomes an `Option`/branch, an *uncaught*
    exception (crash) becomes `Except.error ()`;
  * the mutable counters `success_count` / `failure_count` / `ignore_count`
    are returned as explicit per-table deltas.
String primitives (`str.startswith`, `str.split`, `re.sub`, `Decimal(...)`)
are modelled on `String.data` (the underlying `List Char`) so that all
definitions reduce by `decide`/`rfl`.  The regex class `\d` is modelled as the
ASCII digits `0`-`9`.
-/

set_option autoImplicit false

deriving instance DecidableEq for Except

namespace OCBC

/-- Python `s.split(sep)` for a one-character separator `sep`, on char lists:
`"a\nb"` ↦ `["a","b"]`, `""` ↦ `[""]`, `"\n"` ↦ `["",""]`. -/
def splitOnChar (sep : Char) : List Char → List (List Char)
  | [] => [[]]
  | c :: cs =>
    match splitOnChar sep cs with
    | [] => if c = sep then [[], []] else [[c]]
    | g :: gs => if c = sep then [] :: g :: gs else (c :: g) :: gs

/-- Numeric value of a list of ASCII digit characters (most significant first). -/
def digitsVal (cs : List Char) : Nat :=
  cs.foldl (fun n c => 10 * n + (c.toNat - '0'.toNat)) 0

/-- Python `Decimal(s)` restricted to strings of digits and dots (which is all
`parse_amount` ever passes to it): defined iff `s` has at most one dot and at
least one digit; the value is the usual decimal reading.  `Decimal("")`,
`Decimal(".")` and `Decimal("1.2.3")` raise, `Decimal("1.")` and
`Decimal(".5")` are fine. -/
def decimalOfDigits? (cs : List Char) : Option ℚ :=
  match splitOnChar '.' cs with
  | [ip] => if ip ≠ [] then some (mkRat (digitsVal ip) 1) else none
  | [ip, fp] =>
    if ip ≠ [] ∨ fp ≠ [] then
      some (mkRat (digitsVal ip * 10 ^ fp.length + digitsVal fp) (10 ^ fp.length))
    else none
  | _ => none

/-- Python `re.sub(r"[^\d.]", "", amount)`: keep only ASCII digits and dots. -/
def residue (s : String) : String :=
  ⟨s.data.filter fun c => c.isDigit ∨ c = '.'⟩

/-- `StatementParser.parse_amount`: `""` parses to `None` (absent); otherwise
strip every non-digit/non-dot character and feed the residue to `Decimal`.
An uncaught `InvalidOperation` from `Decimal` is the `.error ()` outcome
(each caller wraps this call in `try`/`except`). -/
def parse_amount (amount : String) : Except Unit (Option ℚ) :=
  if amount = "" then .ok none
  else
    match decimalOfDigits? (residue amount).data with
    | some q => .ok (some q)
    | none => .error ()

/-- The `Transaction` class: one transaction entry of a monthly statement.
`descriptions` collects the description cell of the starting row followed by
the description cells of its continuation rows. -/
structure Transaction where
  transaction_date : String
  value_date : String
  descriptions : List String
  cheque : String
  withdrawal : Option ℚ
  deposit : Option ℚ
  balance : Option ℚ
deriving DecidableEq

/-- The five members of the `SpecialRowDescription` enum (string values). -/
def SPECIAL_ROW_DESCRIPTIONS : List String :=
  ["BALANCE B/F", "BALANCE C/F", "Total Withdrawals/Deposits",
   "Total Interest Paid This Year", "Average Balance"]

/-- First cell of a row; rows are only read at index 0 after a nonemptiness
check, where `headD` agrees with Python `row[0]`. -/
def firstCell (r : List String) : String :=
  r.headD ("")

/-- Python `leftmost_word.startswith("Account No.")`. -/
def startsWithMarker (s : String) : Bool :=
  List.isPrefixOf ("Account No.").data s.data

/-- One row of the shape-B recovery loop (`parse_table_header`, exception
case): an empty first cell becomes the prefix `["", ""]`; otherwise the first
cell is split on the newline character and exactly 2 parts are required.
`.error true` models the uncaught `IndexError` of `row[0]` on a zero-cell row;
`.error false` models the counted failure (`len(new_row) != 2`). -/
def fixRow (row : List String) : Except Bool (List String) :=
  match row with
  | [] => .error true
  | c0 :: restCells =>
    if c0 = "" then .ok ("" :: "" :: restCells)
    else
      let parts := (splitOnChar '\n' c0.data).map fun l => String.mk l
      if parts.length = 2 then .ok (parts ++ restCells) else .error false

/-- The whole shape-B recovery loop over `data[i+3:]`; the first failing row
aborts the loop (Python `return None` from inside the `for`). -/
def fixRows : List (List String) → Except Bool (List (List String))
  | [] => .ok []
  | row :: rest => do
    let r ← fixRow row
    let rs ← fixRows rest
    .ok (r :: rs)

/-- Result of `parse_table_header` together with the deltas it applies to the
parser's `success_count`, `failure_count` and `ignore_count`. -/
structure HeaderOutcome where
  result : Option (List (List String))
  successDelta : Nat
  failureDelta : Nat
  ignoreDelta : Nat
deriving DecidableEq

/-- The marker-row branch of `parse_table_header`, once `data[i][0]` has been
found to start with "Account No.": `i + 2 >= len(data)` (here: fewer than two
following rows) → "Uncomplete headers" failure; otherwise read
`data[i+1][0]` / `data[i+2][0]` (`.error ()` models the uncaught `IndexError`
when one of those rows is empty), then shape A (7 cells / "Transaction" /
"Date", `success_count += 1`, rows `i+3:` returned unmodified), shape B
(6 cells / merged headers, recovery via `fixRows`, no counter on success),
or an "Unexpected headers" failure. -/
def headerAtMarker (row : List String) (rest : List (List String)) :
    Except Unit HeaderOutcome :=
  match rest with
  | r1 :: r2 :: body =>
    match r1.head?, r2.head? with
    | some w1, some w2 =>
      if row.length = 7 ∧ w1 = "Transaction" ∧ w2 = "Date" then
        .ok ⟨some body, 1, 0, 0⟩
      else if row.length = 6 ∧ w1 = "Transaction\nValue" ∧ w2 = "Date\nDate" then
        match fixRows body with
        | .ok fixed => .ok ⟨some fixed, 0, 0, 0⟩
        | .error true => .error ()
        | .error false => .ok ⟨none, 0, 1, 0⟩
      else .ok ⟨none, 0, 1, 0⟩
    | _, _ => .error ()
  | _ => .ok ⟨none, 0, 1, 0⟩

/-- The `for i in range(len(data))` scan of `parse_table_header`, expressed
on the suffix `data[i:]`: `len(data[i]) == 0` → `return None` (no counter is
touched); a marker row dispatches to `headerAtMarker`; otherwise continue;
scan exhausted → `ignore_count += 1`, `return None`. -/
def scanHeader : List (List String) → Except Unit HeaderOutcome
  | [] => .ok ⟨none, 0, 0, 1⟩
  | row :: rest =>
    if row.length = 0 then .ok ⟨none, 0, 0, 0⟩
    else if startsWithMarker (firstCell row) then headerAtMarker row rest
    else scanHeader rest

/-- `StatementParser.parse_table_header` (the saving of the failure artifact
to CSV is abstracted to `failureDelta`, which in the source equals the number
of `save_failure_to_csv` calls). -/
def parse_table_header (data : List (List String)) : Except Unit HeaderOutcome :=
  scanHeader data

/-- The `for row in data` loop of `parse_table_rows`, with the accumulated
`transactions`, `special_rows` and the mutable `current_transaction` slot made
explicit.  Branches, in source order:
  * `row[2]` (`.error ()` models the uncaught `IndexError` on a row of fewer
    than 3 cells) in `SPECIAL_ROW_DESCRIPTIONS` → collect the row; on
    "Average Balance" return immediately (the pending slot is NOT flushed);
  * `row[0] != ""` → close any pending transaction, then `try` to parse the
    three amount cells and build the new pending transaction; any caught
    exception (`IndexError` when the row has fewer than 7 cells, or a
    `Decimal` failure) skips the row and leaves the slot unchanged;
  * otherwise `current_transaction.append_description(row[2])`; with no
    pending transaction this is the uncaught `AttributeError` on `None`,
    modelled `.error ()`. -/
def parseRowsLoop :
    List (List String) → List Transaction → List (List String) →
    Option Transaction → Except Unit (List Transaction × List (List String))
  | [], ts, ss, cur =>
    match cur with
    | some t => .ok (ts ++ [t], ss)
    | none => .ok (ts, ss)
  | row :: rest, ts, ss, cur =>
    if row.length ≤ 2 then .error ()
    else
      let c2 := row.getD 2 ""
      if c2 ∈ SPECIAL_ROW_DESCRIPTIONS then
        if c2 = "Average Balance" then .ok (ts, ss ++ [row])
        else parseRowsLoop rest ts (ss ++ [row]) cur
      else if row.getD 0 "" ≠ "" then
        let ts' := match cur with
          | some t => ts ++ [t]
          | none => ts
        if row.length < 7 then parseRowsLoop rest ts' ss cur
        else
          match parse_amount (row.getD 4 ""), parse_amount (row.getD 5 ""),
              parse_amount (row.getD 6 "") with
          | .ok w, .ok dep, .ok bal =>
            parseRowsLoop rest ts' ss
              (some ⟨row.getD 0 "", row.getD 1 "", [c2], row.getD 3 "", w, dep, bal⟩)
          | _, _, _ => parseRowsLoop rest ts' ss cur
      else
        match cur with
        | some t =>
          parseRowsLoop rest ts ss
            (some { t with descriptions := t.descriptions ++ [c2] })
        | none => .error ()

/-- `StatementParser.parse_table_rows`: empty tables and tables whose first
row is not 7 cells wide yield empty results; otherwise run the row loop. -/
def parse_table_rows (data : List (List String)) :
    Except Unit (List Transaction × List (List String)) :=
  if data.length = 0 then .ok ([], [])
  else if (data.headD []).length ≠ 7 then .ok ([], [])
  else parseRowsLoop data [] [] none

/-- The `Info` class: the per-statement aggregate fields, all optional. -/
structure Info where
  balance_brought_forward : Option ℚ
  balance_carried_forward : Option ℚ
  total_withdrawals : Option ℚ
  total_deposits : Option ℚ
  total_interest_paid_this_year : Option ℚ
  average_balance : Option ℚ
deriving DecidableEq

/-- `Info()`: all fields start as `None`. -/
def emptyInfo : Info :=
  ⟨none, none, none, none, none, none⟩

/-- One iteration of the `for row in rows` loop of `parse_special_rows`.
The whole body is inside `try`/`except`: a row of fewer than 7 cells raises a
caught `IndexError` at `row[4]`/`row[5]`/`row[6]`, and a `Decimal` failure is
caught likewise — either way the row is skipped and `info` is unchanged. -/
def specialStep (info : Info) (row : List String) : Info :=
  if row.length < 7 then info
  else
    match parse_amount (row.getD 4 ""), parse_amount (row.getD 5 ""),
        parse_amount (row.getD 6 "") with
    | .ok w, .ok dep, .ok bal =>
      let description := row.getD 2 ""
      if description = "BALANCE B/F" then
        { info with balance_brought_forward := bal }
      else if description = "BALANCE C/F" then
        { info with balance_carried_forward := bal }
      else if description = "Total Withdrawals/Deposits" then
        { info with total_withdrawals := w, total_deposits := dep }
      else if description = "Total Interest Paid This Year" then
        { info with total_interest_paid_this_year := dep }
      else if description = "Average Balance" then
        { info with average_balance := dep }
      else info
    | _, _, _ => info

/-- `StatementParser.parse_special_rows` over the accumulated special rows. -/
def parse_special_rows (rows : List (List String)) : Info :=
  rows.foldl specialStep emptyInfo

/-- Result of `parse_table` for one raw table, with the counter deltas. -/
structure TableResult where
  transactions : List Transaction
  special_rows : List (List String)
  successDelta : Nat
  failureDelta : Nat
  ignoreDelta : Nat
deriving DecidableEq

/-- `StatementParser.parse_table`: empty tables are returned untouched (no
counter is incremented); otherwise the header is classified and, when it is
recognized, the returned row sublist is passed to `parse_table_rows`. -/
def parse_table (data : List (List String)) : Except Unit TableResult :=
  if data.length = 0 then .ok ⟨[], [], 0, 0, 0⟩
  else do
    let o ← parse_table_header data
    match o.result with
    | none => .ok ⟨[], [], o.successDelta, o.failureDelta, o.ignoreDelta⟩
    | some rows => do
      let r ← parse_table_rows rows
      .ok ⟨r.1, r.2, o.successDelta, o.failureDelta, o.ignoreDelta⟩

/-- Header shape A as the spec words it (normal case): the marker row has
exactly 7 cells and the first cells of the next two rows are "Transaction"
and "Date".  Spec-side predicate, to be compared with the code's
`headerAtMarker`. -/
abbrev shapeA (m r1 r2 : List String) : Prop :=
  m.length = 7 ∧ firstCell r1 = "Transaction" ∧ firstCell r2 = "Date"

/-- Header shape B as the spec words it (merged first columns): the marker
row has exactly 6 cells and the first cells of the next two rows are
"Transaction\nValue" and "Date\nDate".  Spec-side predicate. -/
abbrev shapeB (m r1 r2 : List String) : Prop :=
  m.length = 6 ∧ firstCell r1 = "Transaction\nValue" ∧
    firstCell r2 = "Date\nDate"

/-! Helper lemmas shared by the claim theorems. -/

theorem headerAtMarker_nil (row : List String) :
    headerAtMarker row [] = .ok ⟨none, 0, 1, 0⟩ := rfl

theorem headerAtMarker_single (row r1 : List String) :
    headerAtMarker row [r1] = .ok ⟨none, 0, 1, 0⟩ := rfl

theorem headerAtMarker_cons (row : List String) (w1 w2 : String)
    (t1 t2 : List String) (body : List (List String)) :
    headerAtMarker row ((w1 :: t1) :: (w2 :: t2) :: body) =
      if row.length = 7 ∧ w1 = "Transaction" ∧ w2 = "Date" then
        .ok ⟨some body, 1, 0, 0⟩
      else if row.length = 6 ∧ w1 = "Transaction\nValue" ∧ w2 = "Date\nDate" then
        match fixRows body with
        | .ok fixed => .ok ⟨some fixed, 0, 0, 0⟩
        | .error true => .error ()
        | .error false => .ok ⟨none, 0, 1, 0⟩
      else .ok ⟨none, 0, 1, 0⟩ := rfl

theorem headerAtMarker_noHead1 (row r2 : List String) (body : List (List String)) :
    headerAtMarker row ([] :: r2 :: body) = .error () := rfl

theorem headerAtMarker_noHead2 (row : List String) (w1 : String) (t1 : List String)
    (body : List (List String)) :
    headerAtMarker row ((w1 :: t1) :: [] :: body) = .error () := rfl

theorem headerAtMarker_eq (row r1 r2 : List String) (body : List (List String))
    (w1 w2 : String) (h1 : r1.head? = some w1) (h2 : r2.head? = some w2) :
    headerAtMarker row (r1 :: r2 :: body) =
      if row.length = 7 ∧ w1 = "Transaction" ∧ w2 = "Date" then
        .ok ⟨some body, 1, 0, 0⟩
      else if row.length = 6 ∧ w1 = "Transaction\nValue" ∧ w2 = "Date\nDate" then
        match fixRows body with
        | .ok fixed => .ok ⟨some fixed, 0, 0, 0⟩
        | .error true => .error ()
        | .error false => .ok ⟨none, 0, 1, 0⟩
      else .ok ⟨none, 0, 1, 0⟩ := by
  rcases r1 with _ | ⟨a1, t1⟩
  · exact absurd h1 (by simp)
  · rcases r2 with _ | ⟨a2, t2⟩
    · exact absurd h2 (by simp)
    · have e1 : a1 = w1 := by simpa using h1
      have e2 : a2 = w2 := by simpa using h2
      rw [← e1, ← e2]
      exact headerAtMarker_cons row a1 a2 t1 t2 body

theorem getD_two_of_short {row : List String} (h : row.length ≤ 2) :
    row.getD 2 "" = "" :=
  List.getD_eq_default _ _ h

theorem length_of_special {row : List String}
    (h : row.getD 2 "" ∈ SPECIAL_ROW_DESCRIPTIONS) : 2 < row.length := by
  by_contra hlt
  rw [getD_two_of_short (Nat.not_lt.mp hlt)] at h
  exact absurd h (by decide)

theorem length_of_getD_ne {row : List String} (h : row.getD 2 "" ≠ "") :
    2 < row.length := by
  by_contra hlt
  exact h (getD_two_of_short (Nat.not_lt.mp hlt))

theorem loop_nil_some (ts : List Transaction) (ss : List (List String))
    (t : Transaction) : parseRowsLoop [] ts ss (some t) = .ok (ts ++ [t], ss) :=
  rfl

theorem loop_nil_none (ts : List Transaction) (ss : List (List String)) :
    parseRowsLoop [] ts ss none = .ok (ts, ss) :=
  rfl

theorem loop_special_ab (row : List String) (rest : List (List String))
    (ts : List Transaction) (ss : List (List String)) (cur : Option Transaction)
    (hab : row.getD 2 "" = "Average Balance") :
    parseRowsLoop (row :: rest) ts ss cur = .ok (ts, ss ++ [row]) := by
  have hl : 2 < row.length := length_of_getD_ne (by rw [hab]; decide)
  simp only [parseRowsLoop]
  rw [if_neg (Nat.not_le.mpr hl), if_pos (by rw [hab]; decide), if_pos hab]

theorem loop_special_other (row : List String) (rest : List (List String))
    (ts : List Transaction) (ss : List (List String)) (cur : Option Transaction)
    (hmem : row.getD 2 "" ∈ SPECIAL_ROW_DESCRIPTIONS)
    (hne : row.getD 2 "" ≠ "Average Balance") :
    parseRowsLoop (row :: rest) ts ss cur = parseRowsLoop rest ts (ss ++ [row]) cur := by
  have hl : 2 < row.length := length_of_special hmem
  simp only [parseRowsLoop]
  rw [if_neg (Nat.not_le.mpr hl), if_pos hmem, if_neg hne]

theorem loop_dated_ok (row : List String) (rest : List (List String))
    (ts : List Transaction) (ss : List (List String)) (cur : Option Transaction)
    (w dep bal : Option ℚ)
    (hns : row.getD 2 "" ∉ SPECIAL_ROW_DESCRIPTIONS) (hd : row.getD 0 "" ≠ "")
    (h7 : 7 ≤ row.length)
    (hw : parse_amount (row.getD 4 "") = .ok w)
    (hdep : parse_amount (row.getD 5 "") = .ok dep)
    (hbal : parse_amount (row.getD 6 "") = .ok bal) :
    parseRowsLoop (row :: rest) ts ss cur =
      parseRowsLoop rest (ts ++ cur.toList) ss
        (some ⟨row.getD 0 "", row.getD 1 "", [row.getD 2 ""], row.getD 3 "",
          w, dep, bal⟩) := by
  simp only [parseRowsLoop]
  rw [if_neg (Nat.not_le.mpr (by omega)), if_neg hns, if_pos hd,
    if_neg (Nat.not_lt.mpr h7), hw, hdep, hbal]
  cases cur <;> simp

theorem loop_dated_fail (row : List String) (rest : List (List String))
    (ts : List Transaction) (ss : List (List String)) (cur : Option Transaction)
    (hns : row.getD 2 "" ∉ SPECIAL_ROW_DESCRIPTIONS) (hd : row.getD 0 "" ≠ "")
    (h7 : 7 ≤ row.length)
    (hfail : parse_amount (row.getD 4 "") = .error () ∨
      parse_amount (row.getD 5 "") = .error () ∨
      parse_amount (row.getD 6 "") = .error ()) :
    parseRowsLoop (row :: rest) ts ss cur =
      parseRowsLoop rest (ts ++ cur.toList) ss cur := by
  simp only [parseRowsLoop]
  rw [if_neg (Nat.not_le.mpr (by omega)), if_neg hns, if_pos hd,
    if_neg (Nat.not_lt.mpr h7)]
  rcases hfail with hf | hf | hf <;> rw [hf]
  · cases hdp : parse_amount (row.getD 5 "") <;>
      cases hbl : parse_amount (row.getD 6 "") <;> (cases cur <;> simp)
  · cases hw : parse_amount (row.getD 4 "") <;>
      cases hbl : parse_amount (row.getD 6 "") <;> (cases cur <;> simp)
  · cases hw : parse_amount (row.getD 4 "") <;>
      cases hdp : parse_amount (row.getD 5 "") <;> (cases cur <;> simp)

theorem loop_dated_short (row : List String) (rest : List (List String))
    (ts : List Transaction) (ss : List (List String)) (cur : Option Transaction)
    (hns : row.getD 2 "" ∉ SPECIAL_ROW_DESCRIPTIONS) (hd : row.getD 0 "" ≠ "")
    (hl : 2 < row.length) (h7 : row.length < 7) :
    parseRowsLoop (row :: rest) ts ss cur =
      parseRowsLoop rest (ts ++ cur.toList) ss cur := by
  simp only [parseRowsLoop]
  rw [if_neg (Nat.not_le.mpr hl), if_neg hns, if_pos hd, if_pos h7]
  cases cur <;> simp

theorem loop_cont_some (row : List String) (rest : List (List String))
    (ts : List Transaction) (ss : List (List String)) (t : Transaction)
    (hl : 2 < row.length) (hd : row.getD 0 "" = "")
    (hns : row.getD 2 "" ∉ SPECIAL_ROW_DESCRIPTIONS) :
    parseRowsLoop (row :: rest) ts ss (some t) =
      parseRowsLoop rest ts ss
        (some { t with descriptions := t.descriptions ++ [row.getD 2 ""] }) := by
  simp only [parseRowsLoop]
  rw [if_neg (Nat.not_le.mpr hl), if_neg hns, if_neg (not_ne_iff.mpr hd)]

theorem loop_cont_none (row : List String) (rest : List (List String))
    (ts : List Transaction) (ss : List (List String))
    (hl : 2 < row.length) (hd : row.getD 0 "" = "")
    (hns : row.getD 2 "" ∉ SPECIAL_ROW_DESCRIPTIONS) :
    parseRowsLoop (row :: rest) ts ss none = .error () := by
  simp only [parseRowsLoop]
  rw [if_neg (Nat.not_le.mpr hl), if_neg hns, if_neg (not_ne_iff.mpr hd)]

/-! The claim theorems. -/

/-- Claim C5: amount normalization maps the empty string to absent (a value
distinct from zero); for a non-empty string it strips every character that is
not a decimal digit or a decimal point and returns the exact decimal value of
that residue, signalling a failure to the caller when the residue does not
parse as a number. -/
theorem C5_thm (s : String) (hs : s ≠ "") :
    parse_amount ("") = .ok none ∧
    parse_amount ("") ≠ .ok (some 0) ∧
    (residue s).data = s.data.filter (fun c => c.isDigit ∨ c = '.') ∧
    parse_amount s =
      (match decimalOfDigits? (residue s).data with
        | some q => .ok (some q)
        | none => .error ()) := by
  refine ⟨by decide, by decide, rfl, ?_⟩
  unfold parse_amount
  rw [if_neg hs]

/-- Witness for C5 at the spec's example `"1,234.56 CR"`, whose residue
`1234.56` has the exact value `123456/100`. -/
theorem C5_thm_witness :
    (("1,234.56 CR" : String) ≠ "") ∧
    (parse_amount ("") = .ok none ∧
      parse_amount ("") ≠ .ok (some 0) ∧
      (residue ("1,234.56 CR")).data =
        ("1,234.56 CR").data.filter (fun c => c.isDigit ∨ c = '.') ∧
      parse_amount ("1,234.56 CR") =
        (match decimalOfDigits? (residue ("1,234.56 CR")).data with
          | some q => .ok (some q)
          | none => .error ())) :=
  ⟨by decide, C5_thm ("1,234.56 CR") (by decide)⟩

/-- Claim C2: in shape-B recovery, a 6-cell row with an empty first cell is
rebuilt with a two-empty-string prefix; otherwise its first cell is split on
the newline character and exactly 2 parts are required — any other part count
makes the whole table a counted failure; every successfully rebuilt row has
exactly 7 cells, equal to the split (or empty) prefix followed by the row's
remaining cells. -/
theorem C2_thm (row mrow r1 r2 : List String) (rest : List (List String))
    (h6 : row.length = 6) (hm : mrow.length = 6)
    (hmark : startsWithMarker (firstCell mrow) = true)
    (h1 : r1.head? = some ("Transaction\nValue"))
    (h2 : r2.head? = some ("Date\nDate")) :
    (firstCell row = "" →
      fixRow row = .ok ("" :: "" :: row.tail) ∧
      ("" :: "" :: row.tail).length = 7) ∧
    (firstCell row ≠ "" → (splitOnChar '\n' (firstCell row).data).length = 2 →
      fixRow row =
        .ok (((splitOnChar '\n' (firstCell row).data).map fun l => String.mk l)
          ++ row.tail) ∧
      (((splitOnChar '\n' (firstCell row).data).map fun l => String.mk l)
        ++ row.tail).length = 7) ∧
    (firstCell row ≠ "" → (splitOnChar '\n' (firstCell row).data).length ≠ 2 →
      fixRow row = .error false ∧
      parse_table_header (mrow :: r1 :: r2 :: row :: rest) = .ok ⟨none, 0, 1, 0⟩) := by
  cases row with
  | nil => simp at h6
  | cons c0 tail =>
    have htail : tail.length = 5 := by simpa using h6
    have hfc : firstCell (c0 :: tail) = c0 := rfl
    rw [hfc]
    refine ⟨fun h0 => ?_, fun h0 hsplit => ?_, fun h0 hsplit => ?_⟩
    · rw [fixRow, if_pos h0]
      exact ⟨rfl, by simp [htail]⟩
    · rw [fixRow, if_neg h0]
      rw [if_pos (by simpa using hsplit)]
      exact ⟨rfl, by simp [htail, hsplit]⟩
    · have hfix : fixRow (c0 :: tail) = .error false := by
        rw [fixRow, if_neg h0, if_neg (by simpa using hsplit)]
      refine ⟨hfix, ?_⟩
      have hbody : fixRows ((c0 :: tail) :: rest) = .error false := by
        rw [fixRows, hfix]; rfl
      rw [parse_table_header, scanHeader]
      rw [if_neg (show ¬mrow.length = 0 by omega), if_pos hmark,
        headerAtMarker_eq mrow r1 r2 ((c0 :: tail) :: rest)
          ("Transaction\nValue") ("Date\nDate") h1 h2]
      rw [if_neg (by rw [hm]; decide), if_pos (by rw [hm]; decide), hbody]

/-- Witness for C2 at a merged row `["D1\nD2", a, ..., e]` under a shape-B
header. -/
theorem C2_thm_witness :
    ((["D1\nD2", "a", "b", "c", "d", "e"] : List String).length = 6) ∧
    ((firstCell ["D1\nD2", "a", "b", "c", "d", "e"] = "" →
      fixRow ["D1\nD2", "a", "b", "c", "d", "e"] =
        .ok ("" :: "" :: (["D1\nD2", "a", "b", "c", "d", "e"] : List String).tail) ∧
      ("" :: "" :: (["D1\nD2", "a", "b", "c", "d", "e"] : List String).tail).length = 7) ∧
    (firstCell ["D1\nD2", "a", "b", "c", "d", "e"] ≠ "" →
      (splitOnChar '\n' (firstCell ["D1\nD2", "a", "b", "c", "d", "e"]).data).length = 2 →
      fixRow ["D1\nD2", "a", "b", "c", "d", "e"] =
        .ok (((splitOnChar '\n'
            (firstCell ["D1\nD2", "a", "b", "c", "d", "e"]).data).map fun l => String.mk l)
          ++ (["D1\nD2", "a", "b", "c", "d", "e"] : List String).tail) ∧
      (((splitOnChar '\n'
          (firstCell ["D1\nD2", "a", "b", "c", "d", "e"]).data).map fun l => String.mk l)
        ++ (["D1\nD2", "a", "b", "c", "d", "e"] : List String).tail).length = 7) ∧
    (firstCell ["D1\nD2", "a", "b", "c", "d", "e"] ≠ "" →
      (splitOnChar '\n' (firstCell ["D1\nD2", "a", "b", "c", "d", "e"]).data).length ≠ 2 →
      fixRow ["D1\nD2", "a", "b", "c", "d", "e"] = .error false ∧
      parse_table_header
        (["Account No. 123", "", "", "", "", ""] :: ["Transaction\nValue"] ::
          ["Date\nDate"] :: ["D1\nD2", "a", "b", "c", "d", "e"] :: []) =
        .ok ⟨none, 0, 1, 0⟩)) :=
  ⟨by decide,
    C2_thm ["D1\nD2", "a", "b", "c", "d", "e"] ["Account No. 123", "", "", "", "", ""]
      ["Transaction\nValue"] ["Date\nDate"] [] (by decide) (by decide) (by decide)
      (by decide) (by decide)⟩

/-- Claim C3 at the failing input: the second row is dated but its withdrawal
cell `"x"` fails normalization, so the row is skipped — yet the pending slot
still holds the already-appended first transaction, which is then appended a
second time at end of table.  The first transaction appears TWICE in the
output, refuting "previously completed transactions ... each appear exactly
once"; the spec's intent (skip the row alone) marks this as a code bug. -/
theorem C3_eval :
    parse_table_rows
      [["01 JAN", "02 JAN", "d1", "", "", "", "900.00"],
       ["03 JAN", "04 JAN", "d2", "", "x", "", ""]] =
      .ok ([⟨"01 JAN", "02 JAN", ["d1"], "", none, none, some 900⟩,
        ⟨"01 JAN", "02 JAN", ["d1"], "", none, none, some 900⟩], []) ∧
    parse_amount ("x") = .error () :=
  ⟨by decide, by decide⟩

/-- Claim C4 counterexample: a dated row leaves a pending transaction; the
next row is an "Average Balance" summary row, and the returned transaction
list is empty — the pending transaction does NOT appear, refuting the claim
that a transaction pending at a summary row is finalized into the output. -/
theorem C4_cex :
    parse_table_rows
      [["01 JAN", "02 JAN", "d1", "", "", "", "900.00"],
       ["", "", "Average Balance", "", "", "123.00", ""]] =
      .ok ([], [["", "", "Average Balance", "", "", "123.00", ""]]) := by
  decide

/-- Claim C4 (amended): a pending transaction is finalized exactly when the
next dated row (even one whose amounts then fail) or the end of the table is
reached; a summary row other than "Average Balance" and a continuation row
leave it pending; an "Average Balance" row returns immediately and the
still-pending transaction is discarded, absent from the returned list. -/
theorem C4_amended (row : List String) (rest : List (List String))
    (ts : List Transaction) (ss : List (List String)) (t : Transaction)
    (w dep bal : Option ℚ) :
    parseRowsLoop [] ts ss (some t) = .ok (ts ++ [t], ss) ∧
    (row.getD 2 "" ∉ SPECIAL_ROW_DESCRIPTIONS → row.getD 0 "" ≠ "" →
      7 ≤ row.length →
      parse_amount (row.getD 4 "") = .ok w →
      parse_amount (row.getD 5 "") = .ok dep →
      parse_amount (row.getD 6 "") = .ok bal →
      parseRowsLoop (row :: rest) ts ss (some t) =
        parseRowsLoop rest (ts ++ [t]) ss
          (some ⟨row.getD 0 "", row.getD 1 "", [row.getD 2 ""], row.getD 3 "",
            w, dep, bal⟩)) ∧
    (row.getD 2 "" ∉ SPECIAL_ROW_DESCRIPTIONS → row.getD 0 "" ≠ "" →
      7 ≤ row.length →
      (parse_amount (row.getD 4 "") = .error () ∨
        parse_amount (row.getD 5 "") = .error () ∨
        parse_amount (row.getD 6 "") = .error ()) →
      parseRowsLoop (row :: rest) ts ss (some t) =
        parseRowsLoop rest (ts ++ [t]) ss (some t)) ∧
    (row.getD 2 "" ∈ SPECIAL_ROW_DESCRIPTIONS → row.getD 2 "" ≠ "Average Balance" →
      parseRowsLoop (row :: rest) ts ss (some t) =
        parseRowsLoop rest ts (ss ++ [row]) (some t)) ∧
    (row.getD 2 "" ∉ SPECIAL_ROW_DESCRIPTIONS → row.getD 0 "" = "" →
      2 < row.length →
      parseRowsLoop (row :: rest) ts ss (some t) =
        parseRowsLoop rest ts ss
          (some { t with descriptions := t.descriptions ++ [row.getD 2 ""] })) ∧
    (row.getD 2 "" = "Average Balance" →
      parseRowsLoop (row :: rest) ts ss (some t) = .ok (ts, ss ++ [row])) := by
  refine ⟨loop_nil_some ts ss t, ?_, ?_, ?_, ?_, ?_⟩
  · intro hns hd h7 hw hdep hbal
    simpa using loop_dated_ok row rest ts ss (some t) w dep bal hns hd h7 hw hdep hbal
  · intro hns hd h7 hfail
    simpa using loop_dated_fail row rest ts ss (some t) hns hd h7 hfail
  · intro hmem hne
    exact loop_special_other row rest ts ss (some t) hmem hne
  · intro hns hd hl
    exact loop_cont_some row rest ts ss t hl hd hns
  · intro hab
    exact loop_special_ab row rest ts ss (some t) hab

/-- Claim C6 counterexample: a canonical-width table whose single row is a
continuation row (empty date column, non-summary description) with no pending
transaction makes the row pass fail with the uncaught `AttributeError`
(modelled `.error ()`), refuting "never causes the row pass to crash". -/
theorem C6_cex :
    parse_table_rows [["", "", "some text", "", "", "", ""]] = .error () := by
  decide

/-- Claim C6 (amended): a continuation row (empty date column, non-summary
description) arriving while no transaction is pending aborts the row pass
with an uncaught error (`None.append_description`), rather than being logged
and skipped. -/
theorem C6_amended (row : List String) (rest : List (List String))
    (ts : List Transaction) (ss : List (List String))
    (hl : 2 < row.length) (hd : row.getD 0 "" = "")
    (hns : row.getD 2 "" ∉ SPECIAL_ROW_DESCRIPTIONS) :
    parseRowsLoop (row :: rest) ts ss none = .error () :=
  loop_cont_none row rest ts ss hl hd hns

/-- Witness for the amended C6 at a concrete 7-cell continuation row. -/
theorem C6_amended_witness :
    (2 < (["", "", "some text", "", "", "", ""] : List String).length ∧
      (["", "", "some text", "", "", "", ""] : List String).getD 0 "" = "" ∧
      (["", "", "some text", "", "", "", ""] : List String).getD 2 "" ∉
        SPECIAL_ROW_DESCRIPTIONS) ∧
    parseRowsLoop [["", "", "some text", "", "", "", ""]] [] [] none = .error () :=
  ⟨⟨by decide, by decide, by decide⟩,
    C6_amended ["", "", "some text", "", "", "", ""] [] [] []
      (by decide) (by decide) (by decide)⟩

/-- Claim C7: when a row whose description column is "Average Balance" is
reached, the pass returns immediately: the output is what was accumulated so
far plus that row among the summary rows, and the result does not depend on
the rows physically after it. -/
theorem C7_thm (row : List String) (rest rest2 : List (List String))
    (ts : List Transaction) (ss : List (List String)) (cur : Option Transaction)
    (hab : row.getD 2 "" = "Average Balance") :
    parseRowsLoop (row :: rest) ts ss cur = .ok (ts, ss ++ [row]) ∧
    parseRowsLoop (row :: rest) ts ss cur = parseRowsLoop (row :: rest2) ts ss cur := by
  refine ⟨loop_special_ab row rest ts ss cur hab, ?_⟩
  rw [loop_special_ab row rest ts ss cur hab, loop_special_ab row rest2 ts ss cur hab]

/-- Witness for C7: the rows after the "Average Balance" row are irrelevant. -/
theorem C7_thm_witness :
    ((["", "", "Average Balance", "", "", "1.00", ""] : List String).getD 2 "" =
      "Average Balance") ∧
    (parseRowsLoop [["", "", "Average Balance", "", "", "1.00", ""], ["junk"]]
        [] [] none =
      .ok ([], [["", "", "Average Balance", "", "", "1.00", ""]]) ∧
    parseRowsLoop [["", "", "Average Balance", "", "", "1.00", ""], ["junk"]]
        [] [] none =
      parseRowsLoop [["", "", "Average Balance", "", "", "1.00", ""]] [] [] none) :=
  ⟨by decide,
    C7_thm ["", "", "Average Balance", "", "", "1.00", ""] [["junk"]] [] [] []
      none (by decide)⟩

theorem parseRowsLoop_conts (cs : List (List String)) (ts : List Transaction)
    (ss : List (List String)) (t : Transaction)
    (h : ∀ c ∈ cs, c.getD 0 "" = "" ∧ c.getD 2 "" ∉ SPECIAL_ROW_DESCRIPTIONS ∧
      2 < c.length) :
    parseRowsLoop cs ts ss (some t) =
      .ok (ts ++ [{ t with descriptions :=
        t.descriptions ++ cs.map fun c => c.getD 2 "" }], ss) := by
  induction cs generalizing t with
  | nil => simp [parseRowsLoop]
  | cons c cs ih =>
    obtain ⟨hd, hns, hl⟩ := h c (List.mem_cons_self c cs)
    rw [loop_cont_some c cs ts ss t hl hd hns,
      ih _ (fun x hx => h x (List.mem_cons_of_mem c hx))]
    simp

/-- Claim C9: a dated row (7 cells, non-summary description, parsable
amounts) followed by continuation rows yields exactly one transaction, whose
description list is the dated row's description cell followed by each
continuation row's description cell in input order. -/
theorem C9_thm (row : List String) (cs : List (List String)) (w dep bal : Option ℚ)
    (h7 : row.length = 7) (hd : row.getD 0 "" ≠ "")
    (hns : row.getD 2 "" ∉ SPECIAL_ROW_DESCRIPTIONS)
    (hw : parse_amount (row.getD 4 "") = .ok w)
    (hdep : parse_amount (row.getD 5 "") = .ok dep)
    (hbal : parse_amount (row.getD 6 "") = .ok bal)
    (hcs : ∀ c ∈ cs, c.getD 0 "" = "" ∧ c.getD 2 "" ∉ SPECIAL_ROW_DESCRIPTIONS ∧
      2 < c.length) :
    parse_table_rows (row :: cs) =
      .ok ([⟨row.getD 0 "", row.getD 1 "",
        row.getD 2 "" :: cs.map (fun c => c.getD 2 ""), row.getD 3 "",
        w, dep, bal⟩], []) := by
  unfold parse_table_rows
  rw [if_neg (by simp), if_neg (by simp [h7])]
  rw [loop_dated_ok row cs [] [] none w dep bal hns hd (by omega) hw hdep hbal]
  rw [parseRowsLoop_conts cs _ _ _ hcs]
  simp

/-- Witness for C9 at the spec's example rows, producing one transaction with
descriptions `["desc1", "desc2"]`. -/
theorem C9_thm_witness :
    parse_table_rows
      [["01 JAN", "02 JAN", "desc1", "cq", "", "", ""],
       ["", "", "desc2", "", "", "", ""]] =
      .ok ([⟨"01 JAN", "02 JAN", ["desc1", "desc2"], "cq", none, none, none⟩], []) :=
  C9_thm ["01 JAN", "02 JAN", "desc1", "cq", "", "", ""]
    [["", "", "desc2", "", "", "", ""]] none none none
    (by decide) (by decide) (by decide) (by decide) (by decide) (by decide)
    (by decide)

theorem fixRow_ne_crash {row : List String} (h : row ≠ []) :
    fixRow row ≠ .error true := by
  cases row with
  | nil => exact absurd rfl h
  | cons c0 tail =>
    by_cases h0 : c0 = "" <;>
      by_cases hs : (splitOnChar '\n' c0.data).length = 2 <;>
      simp [fixRow, h0, hs]

theorem fixRows_no_crash {body : List (List String)} (h : ∀ r ∈ body, r ≠ []) :
    fixRows body ≠ .error true := by
  induction body with
  | nil => simp [fixRows]
  | cons row rest ih =>
    have h1 := fixRow_ne_crash (h row (List.mem_cons_self row rest))
    cases hr : fixRow row with
    | error b =>
      cases b with
      | false => simp [fixRows, hr, Bind.bind, Except.bind]
      | true => exact absurd hr h1
    | ok r =>
      cases hs : fixRows rest with
      | error b =>
        cases b with
        | false => simp [fixRows, hr, hs, Bind.bind, Except.bind]
        | true => exact absurd hs (ih fun x hx => h x (List.mem_cons_of_mem row hx))
      | ok rs => simp [fixRows, hr, hs, Bind.bind, Except.bind]

theorem scanHeader_partition (data : List (List String))
    (hne : ∀ r ∈ data, r ≠ []) :
    ∃ o : HeaderOutcome, scanHeader data = .ok o ∧
      o.ignoreDelta + o.failureDelta + (if o.result.isSome then 1 else 0) = 1 ∧
      (o.ignoreDelta = 1 ↔ ∀ r ∈ data, startsWithMarker (firstCell r) = false) := by
  induction data with
  | nil => exact ⟨⟨none, 0, 0, 1⟩, rfl, by simp, by simp⟩
  | cons row rest ih =>
    have hrow : row ≠ [] := hne row (List.mem_cons_self row rest)
    have hlen : ¬row.length = 0 := by simpa [List.length_eq_zero] using hrow
    by_cases hm : startsWithMarker (firstCell row) = true
    · have hiff : ∀ o : HeaderOutcome, o.ignoreDelta = 0 →
          (o.ignoreDelta = 1 ↔
            ∀ r ∈ row :: rest, startsWithMarker (firstCell r) = false) := by
        intro o h0
        constructor
        · intro h1; rw [h0] at h1; exact absurd h1 (by decide)
        · intro hall
          exact absurd (hall row (List.mem_cons_self row rest)) (by simp [hm])
      rcases rest with _ | ⟨r1, rest1⟩
      · refine ⟨⟨none, 0, 1, 0⟩, ?_, by simp, hiff _ rfl⟩
        rw [scanHeader, if_neg hlen, if_pos hm, headerAtMarker_nil]
      · rcases rest1 with _ | ⟨r2, body⟩
        · refine ⟨⟨none, 0, 1, 0⟩, ?_, by simp, hiff _ rfl⟩
          rw [scanHeader, if_neg hlen, if_pos hm, headerAtMarker_single]
        · obtain ⟨w1, t1, rfl⟩ : ∃ a l, r1 = a :: l := by
            rcases r1 with _ | ⟨a, l⟩
            · exact absurd rfl (hne [] (by simp))
            · exact ⟨a, l, rfl⟩
          obtain ⟨w2, t2, rfl⟩ : ∃ a l, r2 = a :: l := by
            rcases r2 with _ | ⟨a, l⟩
            · exact absurd rfl (hne [] (by simp))
            · exact ⟨a, l, rfl⟩
          have hbody : ∀ r ∈ body, r ≠ [] := fun r hr => hne r (by simp [hr])
          by_cases hA : row.length = 7 ∧ w1 = "Transaction" ∧ w2 = "Date"
          · refine ⟨⟨some body, 1, 0, 0⟩, ?_, by simp, hiff _ rfl⟩
            rw [scanHeader, if_neg hlen, if_pos hm, headerAtMarker_cons,
              if_pos hA]
          · by_cases hB : row.length = 6 ∧ w1 = "Transaction\nValue" ∧
                w2 = "Date\nDate"
            · cases hfx : fixRows body with
              | ok fixed =>
                refine ⟨⟨some fixed, 0, 0, 0⟩, ?_, by simp, hiff _ rfl⟩
                rw [scanHeader, if_neg hlen, if_pos hm, headerAtMarker_cons,
                  if_neg hA, if_pos hB, hfx]
              | error b =>
                cases b with
                | true => exact absurd hfx (fixRows_no_crash hbody)
                | false =>
                  refine ⟨⟨none, 0, 1, 0⟩, ?_, by simp, hiff _ rfl⟩
                  rw [scanHeader, if_neg hlen, if_pos hm, headerAtMarker_cons,
                    if_neg hA, if_pos hB, hfx]
            · refine ⟨⟨none, 0, 1, 0⟩, ?_, by simp, hiff _ rfl⟩
              rw [scanHeader, if_neg hlen, if_pos hm, headerAtMarker_cons,
                if_neg hA, if_neg hB]
    · have hm' : startsWithMarker (firstCell row) = false := by
        cases hx : startsWithMarker (firstCell row)
        · rfl
        · exact absurd hx hm
      obtain ⟨o, ho, hpart, hiff⟩ := ih (fun r hr => hne r (List.mem_cons_of_mem row hr))
      refine ⟨o, ?_, hpart, ?_⟩
      · rw [scanHeader, if_neg hlen, if_neg hm]
        exact ho
      · rw [hiff]
        simp [List.forall_mem_cons, hm']

/-- Claim C1 counterexample: the one-row table whose row has zero cells.  No
row's first cell starts with "Account No.", yet the classification returns
`None` with the ignore counter (and every other counter) left untouched —
a fourth outcome outside {ignored, failure, recognized}. -/
theorem scanHeader_skip (pre tail2 : List (List String))
    (hne : ∀ r ∈ pre, r ≠ [])
    (hnm : ∀ r ∈ pre, startsWithMarker (firstCell r) = false) :
    scanHeader (pre ++ tail2) = scanHeader tail2 := by
  induction pre with
  | nil => rfl
  | cons row rest ih =>
    have hrow : row ≠ [] := hne row (List.mem_cons_self row rest)
    have hlen : ¬row.length = 0 := by simpa [List.length_eq_zero] using hrow
    have hm : ¬startsWithMarker (firstCell row) = true := by
      rw [hnm row (List.mem_cons_self row rest)]
      exact Bool.false_ne_true
    rw [List.cons_append, scanHeader, if_neg hlen, if_neg hm]
    exact ih (fun r hr => hne r (List.mem_cons_of_mem row hr))
      (fun r hr => hnm r (List.mem_cons_of_mem row hr))

theorem headerAtMarker_spec (m : List String) (rest : List (List String))
    (hne : ∀ r ∈ rest, r ≠ []) :
    ∃ o : HeaderOutcome, headerAtMarker m rest = .ok o ∧
      o.ignoreDelta = 0 ∧
      (o.failureDelta = 1 ↔
        rest.length < 2 ∨
        (∃ r1 r2 body, rest = r1 :: r2 :: body ∧
          ¬shapeA m r1 r2 ∧ ¬shapeB m r1 r2) ∨
        (∃ r1 r2 body, rest = r1 :: r2 :: body ∧ shapeB m r1 r2 ∧
          fixRows body = .error false)) ∧
      (∀ r1 r2 body, rest = r1 :: r2 :: body →
        (shapeA m r1 r2 → o.result = some body) ∧
        (shapeB m r1 r2 → ∀ fixed, fixRows body = .ok fixed →
          o.result = some fixed)) ∧
      o.failureDelta + (if o.result.isSome then 1 else 0) = 1 := by
  rcases rest with _ | ⟨r1, rest1⟩
  · refine ⟨⟨none, 0, 1, 0⟩, headerAtMarker_nil m, rfl, ?_, ?_, by simp⟩
    · exact iff_of_true rfl (Or.inl (by simp))
    · intro r1 r2 body h
      exact absurd h (by simp)
  · rcases rest1 with _ | ⟨r2, body⟩
    · refine ⟨⟨none, 0, 1, 0⟩, headerAtMarker_single m r1, rfl, ?_, ?_, by simp⟩
      · exact iff_of_true rfl (Or.inl (by simp))
      · intro r1' r2' body' h
        exact absurd h (by simp)
    · obtain ⟨w1, t1, rfl⟩ : ∃ a l, r1 = a :: l := by
        rcases r1 with _ | ⟨a, l⟩
        · exact absurd rfl (hne [] (by simp))
        · exact ⟨a, l, rfl⟩
      obtain ⟨w2, t2, rfl⟩ : ∃ a l, r2 = a :: l := by
        rcases r2 with _ | ⟨a, l⟩
        · exact absurd rfl (hne [] (by simp))
        · exact ⟨a, l, rfl⟩
      have hbody : ∀ r ∈ body, r ≠ [] := fun r hr => hne r (by simp [hr])
      by_cases hA : shapeA m (w1 :: t1) (w2 :: t2)
      · have hA' : m.length = 7 ∧ w1 = "Transaction" ∧ w2 = "Date" := hA
        refine ⟨⟨some body, 1, 0, 0⟩,
          by rw [headerAtMarker_cons, if_pos hA'], rfl, ?_, ?_, by simp⟩
        · refine iff_of_false (by simp) ?_
          rintro (h | ⟨r1', r2', body', heq, hna, hnb⟩ |
            ⟨r1', r2', body', heq, hb, hfx⟩)
          · simp only [List.length_cons] at h
            omega
          · injection heq with e1 e2
            injection e2 with e2a e2b
            subst e1; subst e2a; subst e2b
            exact hna hA
          · injection heq with e1 e2
            injection e2 with e2a e2b
            subst e1; subst e2a; subst e2b
            have h6 : m.length = 6 := hb.1
            have h7 : m.length = 7 := hA'.1
            omega
        · intro r1' r2' body' heq
          injection heq with e1 e2
          injection e2 with e2a e2b
          subst e1; subst e2a; subst e2b
          refine ⟨fun _ => rfl, fun hb _ _ => ?_⟩
          have h6 : m.length = 6 := hb.1
          have h7 : m.length = 7 := hA'.1
          omega
      · by_cases hB : shapeB m (w1 :: t1) (w2 :: t2)
        · have hB' : m.length = 6 ∧ w1 = "Transaction\nValue" ∧
              w2 = "Date\nDate" := hB
          have hA' : ¬(m.length = 7 ∧ w1 = "Transaction" ∧ w2 = "Date") := hA
          cases hfx : fixRows body with
          | ok fixed =>
            refine ⟨⟨some fixed, 0, 0, 0⟩,
              by rw [headerAtMarker_cons, if_neg hA', if_pos hB', hfx], rfl,
              ?_, ?_, by simp⟩
            · refine iff_of_false (by simp) ?_
              rintro (h | ⟨r1', r2', body', heq, hna, hnb⟩ |
                ⟨r1', r2', body', heq, hb, hfx2⟩)
              · simp only [List.length_cons] at h
                omega
              · injection heq with e1 e2
                injection e2 with e2a e2b
                subst e1; subst e2a; subst e2b
                exact hnb hB
              · injection heq with e1 e2
                injection e2 with e2a e2b
                subst e1; subst e2a; subst e2b
                rw [hfx] at hfx2
                exact Except.noConfusion hfx2
            · intro r1' r2' body' heq
              injection heq with e1 e2
              injection e2 with e2a e2b
              subst e1; subst e2a; subst e2b
              refine ⟨fun ha => absurd ha hA, fun _ fixed2 hfx2 => ?_⟩
              rw [hfx] at hfx2
              injection hfx2 with e
              rw [e]
          | error b =>
            cases b with
            | true => exact absurd hfx (fixRows_no_crash hbody)
            | false =>
              refine ⟨⟨none, 0, 1, 0⟩,
                by rw [headerAtMarker_cons, if_neg hA', if_pos hB', hfx], rfl,
                ?_, ?_, by simp⟩
              · exact iff_of_true rfl (Or.inr (Or.inr ⟨w1 :: t1, w2 :: t2,
                  body, rfl, hB, hfx⟩))
              · intro r1' r2' body' heq
                injection heq with e1 e2
                injection e2 with e2a e2b
                subst e1; subst e2a; subst e2b
                refine ⟨fun ha => absurd ha hA, fun _ fixed2 hfx2 => ?_⟩
                rw [hfx] at hfx2
                exact Except.noConfusion hfx2
        · have hA' : ¬(m.length = 7 ∧ w1 = "Transaction" ∧ w2 = "Date") := hA
          have hB' : ¬(m.length = 6 ∧ w1 = "Transaction\nValue" ∧
            w2 = "Date\nDate") := hB
          refine ⟨⟨none, 0, 1, 0⟩,
            by rw [headerAtMarker_cons, if_neg hA', if_neg hB'], rfl,
            ?_, ?_, by simp⟩
          · exact iff_of_true rfl (Or.inr (Or.inl ⟨w1 :: t1, w2 :: t2, body,
              rfl, hA, hB⟩))
          · intro r1' r2' body' heq
            injection heq with e1 e2
            injection e2 with e2a e2b
            subst e1; subst e2a; subst e2b
            exact ⟨fun ha => absurd ha hA, fun hb => absurd hb hB⟩

/-- Claim C1 counterexamples, both closed.  (1) The one-row table whose row
has zero cells: no first cell starts with "Account No.", yet classification
returns `None` with every counter untouched — a fourth outcome outside
{ignored, failure, recognized}.  (2) A table whose marker row is followed by
two rows (the header is complete) forming the recognized merged shape B, but
whose post-header row "no newline" does not split into exactly 2 parts: the
failure counter is incremented although the header is neither incomplete nor
of an unrecognized shape, refuting "the failure counter [is incremented]
exactly when the marker is found but the header is incomplete or of an
unrecognized shape". -/
theorem C1_cex :
    (parse_table_header [([] : List String)] = .ok ⟨none, 0, 0, 0⟩ ∧
      startsWithMarker (firstCell ([] : List String)) = false) ∧
    (parse_table_header
        [["Account No. 1", "", "", "", "", ""], ["Transaction\nValue"],
         ["Date\nDate"], ["no newline", "a", "b", "c", "d", "e"]] =
      .ok ⟨none, 0, 1, 0⟩ ∧
      shapeB ["Account No. 1", "", "", "", "", ""] ["Transaction\nValue"]
        ["Date\nDate"] ∧
      2 ≤ ([["Transaction\nValue"], ["Date\nDate"],
        ["no newline", "a", "b", "c", "d", "e"]] : List (List String)).length) :=
  ⟨⟨by decide, by decide⟩, by decide, by decide, by decide⟩

/-- Claim C1 (amended): for every table all of whose rows are nonempty,
header classification assigns exactly one of the three outcomes ignored
(`ignoreDelta = 1`), failure (`failureDelta = 1`) or recognized (a row
sublist is returned); the ignore counter is incremented exactly when no
row's first cell starts with "Account No."; at the first marker row, the
failure counter is incremented exactly when the header is incomplete (fewer
than two following rows), of an unrecognized shape (neither shape A nor
shape B), or of the merged shape B with a post-header row failing the
exactly-two-part newline split; otherwise the table is recognized and its
post-header rows are returned — unmodified for shape A, canonicalized by the
recovery loop for shape B.  (A table containing a zero-cell row is instead
dropped with no counter incremented, per the first counterexample; the
shape-B recovery failure case refutes the original failure clause, per the
second.) -/
theorem C1_amended (data : List (List String)) (hne : ∀ r ∈ data, r ≠ []) :
    ∃ o : HeaderOutcome, parse_table_header data = .ok o ∧
      o.ignoreDelta + o.failureDelta + (if o.result.isSome then 1 else 0) = 1 ∧
      (o.ignoreDelta = 1 ↔ ∀ r ∈ data, startsWithMarker (firstCell r) = false) ∧
      ∀ pre m rest, data = pre ++ m :: rest →
        (∀ r ∈ pre, startsWithMarker (firstCell r) = false) →
        startsWithMarker (firstCell m) = true →
        (o.failureDelta = 1 ↔
          rest.length < 2 ∨
          (∃ r1 r2 body, rest = r1 :: r2 :: body ∧
            ¬shapeA m r1 r2 ∧ ¬shapeB m r1 r2) ∨
          (∃ r1 r2 body, rest = r1 :: r2 :: body ∧ shapeB m r1 r2 ∧
            fixRows body = .error false)) ∧
        (∀ r1 r2 body, rest = r1 :: r2 :: body →
          (shapeA m r1 r2 → o.result = some body) ∧
          (shapeB m r1 r2 → ∀ fixed, fixRows body = .ok fixed →
            o.result = some fixed)) := by
  obtain ⟨o, ho, hpart, hiff⟩ := scanHeader_partition data hne
  refine ⟨o, ho, hpart, hiff, ?_⟩
  intro pre m rest heq hpre hm
  subst heq
  have hnepre : ∀ r ∈ pre, r ≠ [] := fun r hr => hne r (by simp [hr])
  have hnerest : ∀ r ∈ rest, r ≠ [] := fun r hr => hne r (by simp [hr])
  have hnem : m ≠ [] := hne m (by simp)
  have hmlen : ¬m.length = 0 := by simpa [List.length_eq_zero] using hnem
  obtain ⟨o2, ho2, hig, hfail, hres, hp2⟩ := headerAtMarker_spec m rest hnerest
  have hsk : scanHeader (pre ++ m :: rest) = .ok o2 := by
    rw [scanHeader_skip pre (m :: rest) hnepre hpre, scanHeader,
      if_neg hmlen, if_pos hm, ho2]
  rw [hsk] at ho
  injection ho with h
  subst h
  exact ⟨hfail, hres⟩

/-- Witness for the amended C1 at a concrete recognized shape-A table. -/
theorem C1_amended_witness :
    (∀ r ∈ [["not it"], ["Account No. 1", "", "", "", "", "", ""],
      ["Transaction"], ["Date"]], r ≠ ([] : List String)) ∧
    (∃ o : HeaderOutcome,
      parse_table_header [["not it"], ["Account No. 1", "", "", "", "", "", ""],
        ["Transaction"], ["Date"]] = .ok o ∧
      o.ignoreDelta + o.failureDelta + (if o.result.isSome then 1 else 0) = 1 ∧
      (o.ignoreDelta = 1 ↔ ∀ r ∈ [["not it"],
        ["Account No. 1", "", "", "", "", "", ""], ["Transaction"], ["Date"]],
        startsWithMarker (firstCell r) = false) ∧
      ∀ pre m rest,
        [["not it"], ["Account No. 1", "", "", "", "", "", ""], ["Transaction"],
          ["Date"]] = pre ++ m :: rest →
        (∀ r ∈ pre, startsWithMarker (firstCell r) = false) →
        startsWithMarker (firstCell m) = true →
        (o.failureDelta = 1 ↔
          rest.length < 2 ∨
          (∃ r1 r2 body, rest = r1 :: r2 :: body ∧
            ¬shapeA m r1 r2 ∧ ¬shapeB m r1 r2) ∨
          (∃ r1 r2 body, rest = r1 :: r2 :: body ∧ shapeB m r1 r2 ∧
            fixRows body = .error false)) ∧
        (∀ r1 r2 body, rest = r1 :: r2 :: body →
          (shapeA m r1 r2 → o.result = some body) ∧
          (shapeB m r1 r2 → ∀ fixed, fixRows body = .ok fixed →
            o.result = some fixed))) :=
  ⟨by decide, C1_amended _ (by decide)⟩

theorem headerAtMarker_ok_deltas (row : List String) (rest : List (List String))
    (o : HeaderOutcome) (ho : headerAtMarker row rest = .ok o)
    (hs : o.result.isSome = true) :
    o.successDelta ≤ 1 ∧ o.failureDelta = 0 ∧ o.ignoreDelta = 0 := by
  rcases rest with _ | ⟨r1, rest1⟩
  · rw [headerAtMarker_nil] at ho
    injection ho with h; subst h; simp at hs
  · rcases rest1 with _ | ⟨r2, body⟩
    · rw [headerAtMarker_single] at ho
      injection ho with h; subst h; simp at hs
    · rcases r1 with _ | ⟨w1, t1⟩
      · rw [headerAtMarker_noHead1] at ho
        exact absurd ho (by simp)
      · rcases r2 with _ | ⟨w2, t2⟩
        · rw [headerAtMarker_noHead2] at ho
          exact absurd ho (by simp)
        · rw [headerAtMarker_cons] at ho
          split at ho
          · injection ho with h; subst h; exact ⟨by simp, rfl, rfl⟩
          · split at ho
            · split at ho
              · injection ho with h; subst h; exact ⟨by simp, rfl, rfl⟩
              · exact absurd ho (by simp)
              · injection ho with h; subst h; simp at hs
            · injection ho with h; subst h; simp at hs

theorem scanHeader_ok_deltas (data : List (List String)) (o : HeaderOutcome)
    (ho : scanHeader data = .ok o) (hs : o.result.isSome = true) :
    o.successDelta ≤ 1 ∧ o.failureDelta = 0 ∧ o.ignoreDelta = 0 := by
  induction data with
  | nil =>
    rw [scanHeader] at ho
    injection ho with h; subst h; simp at hs
  | cons row rest ih =>
    rw [scanHeader] at ho
    split at ho
    · injection ho with h; subst h; simp at hs
    · split at ho
      · exact headerAtMarker_ok_deltas row rest o ho hs
      · exact ih ho

/-- Claim C10: a recognized (header-stripped) table whose first row is not 7
cells wide contributes nothing: the row pass returns empty transaction and
summary lists, and the table's failure and ignore counters stay 0 (so no
failure artifact is persisted), distinct from a MalformedHeader failure. -/
theorem C10_thm (data : List (List String)) (o : HeaderOutcome)
    (rows : List (List String))
    (hh : parse_table_header data = .ok o) (hr : o.result = some rows)
    (hrows : rows ≠ []) (h7 : (rows.headD []).length ≠ 7) :
    parse_table_rows rows = .ok ([], []) ∧
    parse_table data = .ok ⟨[], [], o.successDelta, 0, 0⟩ ∧
    o.failureDelta = 0 := by
  have hdel := scanHeader_ok_deltas data o hh (by rw [hr]; rfl)
  have hptr : parse_table_rows rows = .ok ([], []) := by
    rw [parse_table_rows,
      if_neg (by simpa [List.length_eq_zero] using hrows), if_pos h7]
  refine ⟨hptr, ?_, hdel.2.1⟩
  have hdne : ¬data.length = 0 := by
    intro hl
    rw [List.length_eq_zero] at hl
    subst hl
    rw [parse_table_header, scanHeader] at hh
    injection hh with h
    rw [← h] at hr
    simp at hr
  rw [parse_table, if_neg hdne, hh]
  simp only [Bind.bind, Except.bind]
  rw [hr]
  simp only [hptr, Bind.bind, Except.bind]
  rw [hdel.2.1, hdel.2.2]

/-- Witness for C10: a recognized shape-A table whose body row has 2 cells is
dropped by the row pass with all counters except `success_count` at zero. -/
theorem C10_thm_witness :
    (parse_table_header
      [["Account No. 123", "", "", "", "", "", ""], ["Transaction"], ["Date"],
       ["x", "y"]] = .ok ⟨some [["x", "y"]], 1, 0, 0⟩) ∧
    (parse_table_rows [["x", "y"]] = .ok ([], []) ∧
      parse_table
        [["Account No. 123", "", "", "", "", "", ""], ["Transaction"], ["Date"],
         ["x", "y"]] = .ok ⟨[], [], 1, 0, 0⟩ ∧
      (0 : Nat) = 0) :=
  ⟨by decide,
    C10_thm
      [["Account No. 123", "", "", "", "", "", ""], ["Transaction"], ["Date"],
       ["x", "y"]]
      ⟨some [["x", "y"]], 1, 0, 0⟩ [["x", "y"]]
      (by decide) (by decide) (by decide) (by decide)⟩

theorem specialStep_eq (info : Info) (row : List String) (w dep bal : Option ℚ)
    (h7 : 7 ≤ row.length)
    (hw : parse_amount (row.getD 4 "") = .ok w)
    (hdep : parse_amount (row.getD 5 "") = .ok dep)
    (hbal : parse_amount (row.getD 6 "") = .ok bal) :
    specialStep info row =
      (if row.getD 2 "" = "BALANCE B/F" then
        { info with balance_brought_forward := bal }
      else if row.getD 2 "" = "BALANCE C/F" then
        { info with balance_carried_forward := bal }
      else if row.getD 2 "" = "Total Withdrawals/Deposits" then
        { info with total_withdrawals := w, total_deposits := dep }
      else if row.getD 2 "" = "Total Interest Paid This Year" then
        { info with total_interest_paid_this_year := dep }
      else if row.getD 2 "" = "Average Balance" then
        { info with average_balance := dep }
      else info) := by
  rw [specialStep, if_neg (Nat.not_lt.mpr h7), hw, hdep, hbal]

/-- Claim C8: special-row extraction maps each recognized label to its source
column and Info field — BALANCE B/F and BALANCE C/F from the balance column
(cell 6), Total Withdrawals/Deposits from the withdrawal and deposit columns
(cells 4 and 5), Total Interest Paid This Year and Average Balance from the
deposit column (cell 5) — processing rows in order with last-write-wins on
repeated labels (the final row's assignment stands whatever precedes it), and
never failing on duplicates. -/
theorem C8_thm (pre : List (List String)) (row : List String)
    (w dep bal : Option ℚ) (h7 : 7 ≤ row.length)
    (hw : parse_amount (row.getD 4 "") = .ok w)
    (hdep : parse_amount (row.getD 5 "") = .ok dep)
    (hbal : parse_amount (row.getD 6 "") = .ok bal) :
    (row.getD 2 "" = "BALANCE B/F" →
      (parse_special_rows (pre ++ [row])).balance_brought_forward = bal) ∧
    (row.getD 2 "" = "BALANCE C/F" →
      (parse_special_rows (pre ++ [row])).balance_carried_forward = bal) ∧
    (row.getD 2 "" = "Total Withdrawals/Deposits" →
      (parse_special_rows (pre ++ [row])).total_withdrawals = w ∧
      (parse_special_rows (pre ++ [row])).total_deposits = dep) ∧
    (row.getD 2 "" = "Total Interest Paid This Year" →
      (parse_special_rows (pre ++ [row])).total_interest_paid_this_year = dep) ∧
    (row.getD 2 "" = "Average Balance" →
      (parse_special_rows (pre ++ [row])).average_balance = dep) := by
  have hstep : parse_special_rows (pre ++ [row]) =
      specialStep (parse_special_rows pre) row := by
    rw [parse_special_rows, parse_special_rows, List.foldl_append]
    rfl
  rw [hstep, specialStep_eq _ _ w dep bal h7 hw hdep hbal]
  refine ⟨fun h => ?_, fun h => ?_, fun h => ?_, fun h => ?_, fun h => ?_⟩
  · rw [h, if_pos rfl]
  · rw [h, if_neg (by decide), if_pos rfl]
  · rw [h, if_neg (by decide), if_neg (by decide), if_pos rfl]
    exact ⟨rfl, rfl⟩
  · rw [h, if_neg (by decide), if_neg (by decide), if_neg (by decide),
      if_pos rfl]
  · rw [h, if_neg (by decide), if_neg (by decide), if_neg (by decide),
      if_neg (by decide), if_pos rfl]

/-- Witness for C8: two "BALANCE C/F" rows, the earlier with balance 100.00
and the later with 900.00 — `balance_carried_forward` ends at the
later-processed row's value 900. -/
theorem C8_thm_witness :
    (parse_amount
        ((["", "", "BALANCE C/F", "", "", "", "900.00"] : List String).getD 6 "") =
      .ok (some 900)) ∧
    ((["", "", "BALANCE C/F", "", "", "", "900.00"] : List String).getD 2 "" =
        "BALANCE C/F" →
      (parse_special_rows
        ([["", "", "BALANCE C/F", "", "", "", "100.00"]] ++
          [["", "", "BALANCE C/F", "", "", "", "900.00"]])).balance_carried_forward =
        some 900) :=
  ⟨by decide,
    (C8_thm [["", "", "BALANCE C/F", "", "", "", "100.00"]]
      ["", "", "BALANCE C/F", "", "", "", "900.00"] none none (some 900)
      (by decide) (by decide) (by decide) (by decide)).2.1⟩

end OCBC
